import Mathlib

/-!
# Shallow embedding of the BusTub buffer pool manager

This file embeds the buffer pool layer of the repository:
* `src/src/include/buffer/lru_replacer.h` (header and the appended
  `lru_replacer.cpp` implementation): an LRU eviction replacer built as a
  doubly linked list (insert at head, evict at tail) plus a hash index.
  The linked list is modelled as a Lean `List` of frame ids, head first
  (most recently inserted first); the tail node is the list's last element.
* `src/src/buffer/buffer_pool_manager.cpp`: fetch / unpin / flush / new /
  delete / flush-all over a fixed pool of page frames, a page table, a free
  list, the replacer, and a disk manager.

The disk manager is external; it is modelled as a map from page id to page
content together with an explicit I/O event trace returned by each
operation (`ReadPage` / `WritePage` events).  Page content is abstracted to
a single `Nat` token (`ResetMemory` writes `0`).  Each buffer pool
operation is a function from state to (result, new state, I/O events
performed, in order).
-/

/-- `page_id_t` of the source (a signed machine integer). -/
abbrev PageId := Int

/-- `frame_id_t` of the source (a signed machine integer). -/
abbrev FrameId := Int

/-- `INVALID_PAGE_ID` sentinel from the source configuration. -/
def INVALID_PAGE_ID : PageId := -1

/-- One pool slot (`class Page`): identity, pin count, dirty flag, and the
content buffer abstracted to one `Nat` token (zeroed by `ResetMemory`). -/
structure Page where
  page_id : PageId
  pin_count : Int
  is_dirty : Bool
  data : Nat
deriving DecidableEq, Repr

/-- A freshly constructed page slot: unbound identity, pin count `0`, clean,
zeroed memory. -/
def defaultPage : Page := ⟨INVALID_PAGE_ID, 0, false, 0⟩

/-- One synchronous disk manager call performed by an operation. -/
inductive IOEvent where
  | readPage (pid : PageId)
  | writePage (pid : PageId) (d : Nat)
deriving DecidableEq, Repr

/-- `LRUReplacer` state: `lst` is the doubly linked list read from `head`
to `tail` (most recently inserted frame first, so the oldest inserted frame
is the last element, the node at `tail->pre`); `capacity` is `num_pages`
from the constructor.  The hash index of the source always holds exactly
the keys of the list, so list membership models hash membership. -/
structure LRUReplacer where
  lst : List FrameId
  capacity : Nat
deriving DecidableEq, Repr

/-- `LRUReplacer::insert`: splice a new node right after `head`. -/
def LRUReplacer.insert (r : LRUReplacer) (f : FrameId) : LRUReplacer :=
  { r with lst := f :: r.lst }

/-- `LRUReplacer::erase`: unlink the node found through the hash index
(remove the entry with this key). -/
def LRUReplacer.eraseKey (r : LRUReplacer) (f : FrameId) : LRUReplacer :=
  { r with lst := r.lst.erase f }

/-- `LRUReplacer::Victim`: if the list is empty report failure, otherwise
remove and return the key of the node at `tail->pre` (the last element). -/
def LRUReplacer.victim (r : LRUReplacer) : Option FrameId × LRUReplacer :=
  match r.lst.getLast? with
  | none => (none, r)
  | some v => (some v, { r with lst := r.lst.dropLast })

/-- `LRUReplacer::Pin`: if the frame is in the hash index, unlink its node
and drop the index entry; otherwise do nothing. -/
def LRUReplacer.pin (r : LRUReplacer) (f : FrameId) : LRUReplacer :=
  if f ∈ r.lst then r.eraseKey f else r

/-- `LRUReplacer::Unpin`: only acts when the frame is absent; if the list
is at capacity it first erases the node at `tail->pre` (oldest), then
inserts the frame at the head. -/
def LRUReplacer.unpin (r : LRUReplacer) (f : FrameId) : LRUReplacer :=
  if f ∈ r.lst then r
  else if r.lst.length = r.capacity then
    { r with lst := f :: r.lst.dropLast }
  else
    { r with lst := f :: r.lst }

/-- `LRUReplacer::Size`. -/
def LRUReplacer.size (r : LRUReplacer) : Nat := r.lst.length

/-- `BufferPoolManager` state.  `pages` is the frame array `pages_`
(indexed by frame id), `page_table` the `page_table_` map as an association
list (no duplicate keys arise), `free_list` the `free_list_` (front =
`front()`), `disk` the disk manager's stored page contents, and
`next_page_id` the disk manager's page id allocation counter. -/
structure BPMState where
  pool_size : Nat
  pages : List Page
  page_table : List (PageId × FrameId)
  free_list : List FrameId
  replacer : LRUReplacer
  disk : List (PageId × Nat)
  next_page_id : PageId
deriving DecidableEq, Repr

/-- Read `pages_ + fid` (the frame array slot). -/
def getPage (s : BPMState) (fid : FrameId) : Page :=
  s.pages.getD fid.toNat defaultPage

/-- Write back `pages_ + fid`. -/
def setPage (s : BPMState) (fid : FrameId) (p : Page) : BPMState :=
  { s with pages := s.pages.set fid.toNat p }

/-- `unordered_map` assignment `page_table_[pid] = fid`: any previous
binding of `pid` is replaced. -/
def ptInsert (t : List (PageId × FrameId)) (pid : PageId) (fid : FrameId) :
    List (PageId × FrameId) :=
  (pid, fid) :: t.filter (fun q => !(q.1 == pid))

/-- `page_table_.erase(pid)`. -/
def ptErase (t : List (PageId × FrameId)) (pid : PageId) :
    List (PageId × FrameId) :=
  t.filter (fun q => !(q.1 == pid))

/-- `DiskManager::WritePage` effect on the stored disk contents. -/
def diskWrite (d : List (PageId × Nat)) (pid : PageId) (v : Nat) :
    List (PageId × Nat) :=
  (pid, v) :: d.filter (fun q => !(q.1 == pid))

/-- `DiskManager::ReadPage`: content stored for `pid` (a page never
written reads as zeroes). -/
def diskRead (d : List (PageId × Nat)) (pid : PageId) : Nat :=
  (d.lookup pid).getD 0

/-- `BufferPoolManager::FlushPageImpl`: fail if the page is not resident;
otherwise `WritePage` the frame's data unconditionally and clear the dirty
flag. -/
def flushPageImpl (s : BPMState) (pid : PageId) :
    Bool × BPMState × List IOEvent :=
  match s.page_table.lookup pid with
  | none => (false, s, [])
  | some fid =>
      let frame := getPage s fid
      let s1 := { s with disk := diskWrite s.disk pid frame.data }
      let s2 := setPage s1 fid { frame with is_dirty := false }
      (true, s2, [IOEvent.writePage pid frame.data])

/-- `BufferPoolManager::FetchPageImpl`.  Resident case: bump the pin count
and return the frame (the source performs no replacer call there, at the
line marked `// neglect`).  Otherwise take a frame from the free list
(reset, read from disk, pin 1, clean, install the table entry), or ask the
replacer for a victim, flushing it first when dirty, erasing its table
entry, and rebinding the frame.  Returns the frame id standing for the
returned `Page *`. -/
def fetchPageImpl (s : BPMState) (pid : PageId) :
    Option FrameId × BPMState × List IOEvent :=
  match s.page_table.lookup pid with
  | some fid =>
      let frame := getPage s fid
      (some fid, setPage s fid { frame with pin_count := frame.pin_count + 1 }, [])
  | none =>
      match s.free_list with
      | fid :: rest =>
          let s1 := { s with free_list := rest }
          let content := diskRead s1.disk pid
          let s2 := setPage s1 fid
            { page_id := pid, pin_count := 1, is_dirty := false, data := content }
          (some fid,
           { s2 with page_table := ptInsert s2.page_table pid fid },
           [IOEvent.readPage pid])
      | [] =>
          match s.replacer.victim with
          | (none, _) => (none, s, [])
          | (some vfid, rep) =>
              let s1 := { s with replacer := rep }
              let vframe := getPage s1 vfid
              let vpid := vframe.page_id
              let fr := if vframe.is_dirty then flushPageImpl s1 vpid else (true, s1, [])
              let s2 := fr.2.1
              let s3 := { s2 with page_table := ptErase s2.page_table vpid }
              let content := diskRead s3.disk pid
              let s4 := setPage s3 vfid
                { page_id := pid, pin_count := 1, is_dirty := false, data := content }
              (some vfid,
               { s4 with page_table := ptInsert s4.page_table pid vfid },
               fr.2.2 ++ [IOEvent.readPage pid])

/-- `BufferPoolManager::UnpinPageImpl`: fail when not resident or when the
pin count is already zero; otherwise, when `is_dirty` is set, first call
`FlushPage(page_id)`, then or the dirty flag, decrement the pin count, and
hand the frame to the replacer exactly when the count reaches zero. -/
def unpinPageImpl (s : BPMState) (pid : PageId) (is_dirty : Bool) :
    Bool × BPMState × List IOEvent :=
  match s.page_table.lookup pid with
  | none => (false, s, [])
  | some fid =>
      let frame := getPage s fid
      if frame.pin_count = 0 then (false, s, [])
      else
        let fr := if is_dirty then flushPageImpl s pid else (true, s, [])
        let s1 := fr.2.1
        let frame1 := getPage s1 fid
        let frame2 := { frame1 with
          is_dirty := frame1.is_dirty || is_dirty,
          pin_count := frame1.pin_count - 1 }
        let s2 := setPage s1 fid frame2
        let s3 :=
          if frame2.pin_count = 0 then
            { s2 with replacer := s2.replacer.unpin fid }
          else s2
        (true, s3, fr.2.2)

/-- `BufferPoolManager::NewPageImpl`: allocate a fresh id from the disk
manager, then take a free frame (reset, pin 1, dirty, install entry) or a
victim (flush when dirty, reset, swap table entries, pin 1, dirty).
Returns the new page id with the frame id standing for the returned
`Page *`. -/
def newPageImpl (s : BPMState) :
    Option (PageId × FrameId) × BPMState × List IOEvent :=
  let newPid := s.next_page_id
  let s0 := { s with next_page_id := s.next_page_id + 1 }
  match s0.free_list with
  | fid :: rest =>
      let s1 := { s0 with free_list := rest }
      let s2 := setPage s1 fid
        { page_id := newPid, pin_count := 1, is_dirty := true, data := 0 }
      (some (newPid, fid),
       { s2 with page_table := ptInsert s2.page_table newPid fid }, [])
  | [] =>
      match s0.replacer.victim with
      | (none, _) => (none, s0, [])
      | (some vfid, rep) =>
          let s1 := { s0 with replacer := rep }
          let vframe := getPage s1 vfid
          let vpid := vframe.page_id
          let fr := if vframe.is_dirty then flushPageImpl s1 vpid else (true, s1, [])
          let s2 := fr.2.1
          let s3 := { s2 with page_table := ptErase s2.page_table vpid }
          let s4 := { s3 with page_table := ptInsert s3.page_table newPid vfid }
          let s5 := setPage s4 vfid
            { page_id := newPid, pin_count := 1, is_dirty := true, data := 0 }
          (some (newPid, vfid), s5, fr.2.2)

/-- `BufferPoolManager::DeletePageImpl`: the source body is the single
statement `return false;` (the steps are only described in a comment), so
every call fails and changes nothing. -/
def deletePageImpl (s : BPMState) (_pid : PageId) :
    Bool × BPMState × List IOEvent :=
  (false, s, [])

/-- `BufferPoolManager::FlushAllPagesImpl`: the source body is empty, so
the call changes nothing and performs no I/O. -/
def flushAllPagesImpl (s : BPMState) : BPMState × List IOEvent :=
  (s, [])

/-- The `BufferPoolManager` constructor: `pool_size` default page slots,
every frame initially on the free list (in index order), a fresh replacer
of capacity `pool_size`, empty page table.  The disk starts empty with the
allocation counter at `0`. -/
def initBPM (pool_size : Nat) : BPMState :=
  { pool_size := pool_size
    pages := List.replicate pool_size defaultPage
    page_table := []
    free_list := (List.range pool_size).map Int.ofNat
    replacer := { lst := [], capacity := pool_size }
    disk := []
    next_page_id := 0 }

/-! ## History model of the replacer

To state that `Victim` returns the frame that became eligible longest ago,
the replacer is run over an explicit operation history, next to a ghost
copy that also records, for every currently eligible frame, the timestamp
(operation index) at which it last became eligible. -/

/-- One call into the replacer's public interface. -/
inductive ROp where
  | unpinOp (f : FrameId)
  | pinOp (f : FrameId)
  | victimOp
deriving DecidableEq, Repr

/-- Dispatch one replacer call. -/
def LRUReplacer.applyOp (r : LRUReplacer) : ROp → LRUReplacer
  | ROp.unpinOp f => r.unpin f
  | ROp.pinOp f => r.pin f
  | ROp.victimOp => (r.victim).2

/-- Run a call history against a freshly constructed replacer. -/
def runOps (cap : Nat) (ops : List ROp) : LRUReplacer :=
  ops.foldl LRUReplacer.applyOp { lst := [], capacity := cap }

/-- Ghost analogue of `LRUReplacer.eraseKey` on timestamped entries. -/
def gEraseKey (g : List (FrameId × Nat)) (f : FrameId) : List (FrameId × Nat) :=
  g.eraseP (fun q => f == q.1)

/-- Ghost step: the timestamped eligible list evolves exactly like the
replacer's list, and an entry inserted at time `t` carries timestamp `t`. -/
def gApply (cap : Nat) : List (FrameId × Nat) × Nat → ROp → List (FrameId × Nat) × Nat
  | (g, t), ROp.unpinOp f =>
      if f ∈ g.map Prod.fst then (g, t + 1)
      else if g.length = cap then ((f, t) :: g.dropLast, t + 1)
      else ((f, t) :: g, t + 1)
  | (g, t), ROp.pinOp f =>
      (if f ∈ g.map Prod.fst then gEraseKey g f else g, t + 1)
  | (g, t), ROp.victimOp => (g.dropLast, t + 1)

/-- Run the ghost model over a call history, starting at time `0`. -/
def gRun (cap : Nat) (ops : List ROp) : List (FrameId × Nat) × Nat :=
  ops.foldl (gApply cap) ([], 0)

/-- Timestamps strictly decrease from head to tail and are all below the
current time. -/
def gSorted (g : List (FrameId × Nat)) (t : Nat) : Prop :=
  List.Pairwise (fun a b => b.2 < a.2) g ∧ ∀ p ∈ g, p.2 < t

/-! ## Concrete scenario states used by individual claims -/

/-- Pool of one frame holding page `5`, fetched and then unpinned, so that
frame `0` is eligible while page `5` stays resident with pin count `0`. -/
def residentEligible1 : BPMState :=
  (unpinPageImpl (fetchPageImpl (initBPM 1) 5).2.1 5 false).2.1

/-- `residentEligible1` after fetching page `5` again: the pin count rises
to `1` but the source performs no replacer call, so frame `0` stays in the
eligible list. -/
def pinnedButEligible1 : BPMState :=
  (fetchPageImpl residentEligible1 5).2.1

/-- Pool of one frame with page `5` resident and pinned (fetched once). -/
def residentPinned1 : BPMState :=
  (fetchPageImpl (initBPM 1) 5).2.1

/-- Scenario B start state: pool of two frames, page `1` (A) fetched into
frame `0` and page `2` (B) into frame `1`, then A unpinned dirty first and
B unpinned clean second, so both are eligible with A the older entry. -/
def scenarioBState : BPMState :=
  (unpinPageImpl
    (unpinPageImpl
      (fetchPageImpl (fetchPageImpl (initBPM 2) 1).2.1 2).2.1
      1 true).2.1
    2 false).2.1

/-- Scenario C start state: pool of one frame, page `5` fetched twice so
its pin count is `2`. -/
def scenarioCState : BPMState :=
  (fetchPageImpl (fetchPageImpl (initBPM 1) 5).2.1 5).2.1

/-- Scenario C after `unpin(5, true)`: pin count `1`, dirty. -/
def scenarioCAfter1 : BPMState := (unpinPageImpl scenarioCState 5 true).2.1

/-- Scenario C after the second unpin `unpin(5, false)`: pin count `0`,
dirty, frame `0` eligible. -/
def scenarioCAfter2 : BPMState := (unpinPageImpl scenarioCAfter1 5 false).2.1

/-! ## Helper lemmas about the state components -/

theorem getD_set_eq {α : Type} (l : List α) (i : Nat) (a d : α) (h : i < l.length) :
    (l.set i a).getD i d = a := by
  simp [List.getD_eq_getElem?_getD, List.getElem?_set_self h]

theorem getPage_mk (ps : Nat) (pgs : List Page) (pt : List (PageId × FrameId))
    (fl : List FrameId) (rep : LRUReplacer) (dk : List (PageId × Nat))
    (np : PageId) (fid : FrameId) :
    getPage (BPMState.mk ps pgs pt fl rep dk np) fid = pgs.getD fid.toNat defaultPage := rfl

theorem getPage_setPage_self (s : BPMState) (fid : FrameId) (p : Page)
    (h : fid.toNat < s.pages.length) : getPage (setPage s fid p) fid = p := by
  simp [getPage, setPage, List.getD_eq_getElem?_getD, List.getElem?_set_self h]

theorem pages_length_setPage (s : BPMState) (fid : FrameId) (p : Page) :
    (setPage s fid p).pages.length = s.pages.length := by
  simp [setPage]

theorem lookup_eq_none_of_keys_ne {α β : Type} [BEq α] [LawfulBEq α]
    (t : List (α × β)) (k : α) (h : ∀ q ∈ t, q.1 ≠ k) :
    t.lookup k = none := by
  induction t with
  | nil => rfl
  | cons q t ih =>
      obtain ⟨k0, v0⟩ := q
      have hk : k ≠ k0 := fun he => (h (k0, v0) (by simp)) (by simp [he])
      simp only [List.lookup_cons]
      rw [show (k == k0) = false from beq_false_of_ne hk]
      exact ih (fun q hq => h q (by simp [hq]))

theorem lookup_cons_ne {α β : Type} [BEq α] [LawfulBEq α]
    (t : List (α × β)) (k k0 : α) (v0 : β) (h : k ≠ k0) :
    ((k0, v0) :: t).lookup k = t.lookup k := by
  simp only [List.lookup_cons]
  rw [show (k == k0) = false from beq_false_of_ne h]

theorem lookup_filter_ne_self (t : List (PageId × FrameId)) (pid : PageId) :
    (t.filter (fun q => !(q.1 == pid))).lookup pid = none := by
  apply lookup_eq_none_of_keys_ne
  intro q hq
  have := (List.mem_filter.mp hq).2
  simpa using this

theorem diskRead_diskWrite_self (d : List (PageId × Nat)) (pid : PageId) (v : Nat) :
    diskRead (diskWrite d pid v) pid = v := by
  simp [diskRead, diskWrite, List.lookup_cons]

theorem diskWrite_diskWrite_self (d : List (PageId × Nat)) (pid : PageId) (v : Nat) :
    diskWrite (diskWrite d pid v) pid v = diskWrite d pid v := by
  simp only [diskWrite]
  rw [List.filter_cons_of_neg (by simp), List.filter_filter]
  congr 1
  apply List.filter_congr
  intro q hq
  cases h : (q.1 == pid) <;> simp [h]

theorem mem_unpin_self (r : LRUReplacer) (f : FrameId) : f ∈ (r.unpin f).lst := by
  unfold LRUReplacer.unpin
  by_cases h : f ∈ r.lst
  · simp [h]
  · by_cases hc : r.lst.length = r.capacity <;> simp [h, hc]

theorem getD_pages_fold (s : BPMState) (fid : FrameId) :
    s.pages.getD fid.toNat defaultPage = getPage s fid := rfl

theorem lookup_rebind_none (t : List (PageId × FrameId)) (vpid pid : PageId)
    (fid : FrameId) (h : vpid ≠ pid) :
    (ptInsert (ptErase t vpid) pid fid).lookup vpid = none := by
  rw [ptInsert, lookup_cons_ne _ _ _ _ h]
  apply lookup_eq_none_of_keys_ne
  intro q hq
  have h1 := (List.mem_filter.mp hq).1
  have h2 := (List.mem_filter.mp h1).2
  simpa using h2

theorem flushPageImpl_resident (s : BPMState) (pid : PageId) (fid : FrameId)
    (hfid : s.page_table.lookup pid = some fid) :
    flushPageImpl s pid
      = (true,
         setPage { s with disk := diskWrite s.disk pid (getPage s fid).data }
           fid { getPage s fid with is_dirty := false },
         [IOEvent.writePage pid (getPage s fid).data]) := by
  simp [flushPageImpl, hfid]

/-! ## Claim theorems -/

/-- Claim C1: the central invariant fails on the code.  In the pool-of-one
run fetch(5); unpin(5,false); fetch(5), the second fetch takes the
resident branch, which increments the pin count but performs no replacer
call (the `// neglect` line), so frame `0` has pin count `1` yet stays in
the eviction-eligible list; the replacer then selects it as victim, and a
subsequent fetch(7) actually evicts the pinned frame. -/
theorem C1_pinned_frame_eligible_and_victimized :
    (getPage pinnedButEligible1 0).pin_count = 1 ∧
    (0 : Int) ∈ pinnedButEligible1.replacer.lst ∧
    (pinnedButEligible1.replacer.victim).1 = some 0 ∧
    pinnedButEligible1.page_table.lookup 5 = some 0 ∧
    pinnedButEligible1.free_list = [] ∧
    (fetchPageImpl pinnedButEligible1 7).1 = some 0 := by decide

/-- Claim C2: fetching an already-resident page does increment the pin
count by one, returns the frame, and performs no disk I/O, but it does not
remove the frame from the eviction-eligible set: starting from a state
where page `5` is resident in the eligible frame `0`, after fetch(5) the
frame is still in the replacer's list, contradicting the claim. -/
theorem C2_fetch_resident_leaves_frame_eligible :
    residentEligible1.page_table.lookup 5 = some 0 ∧
    (0 : Int) ∈ residentEligible1.replacer.lst ∧
    (fetchPageImpl residentEligible1 5).1 = some 0 ∧
    (getPage (fetchPageImpl residentEligible1 5).2.1 0).pin_count =
      (getPage residentEligible1 0).pin_count + 1 ∧
    (fetchPageImpl residentEligible1 5).2.2 = [] ∧
    (0 : Int) ∈ (fetchPageImpl residentEligible1 5).2.1.replacer.lst := by decide

/-- Claim C4: `DeletePageImpl` is the stub `return false;`, so deleting a
page that is not resident returns `false` and changes nothing, while the
claim (and the function's own step comments) require `true` in that
case. -/
theorem C4_delete_nonresident_returns_false :
    (initBPM 1).page_table.lookup 1 = none ∧
    deletePageImpl (initBPM 1) 1 = (false, initBPM 1, []) := by decide

/-- Claim C5: `FlushAllPagesImpl` has an empty body, so with page `5`
resident the call performs no disk write at all (empty I/O trace) and
leaves the state unchanged, while the claim requires a write for every
resident page. -/
theorem C5_flush_all_writes_nothing :
    residentPinned1.page_table.lookup 5 = some 0 ∧
    flushAllPagesImpl residentPinned1 = (residentPinned1, []) := by decide

/-- Claim C6 counterexample: with capacity `1`, `Unpin 0` makes frame `0`
eligible, and the subsequent `Unpin 1` (frame absent, list at capacity)
evicts frame `0` while inserting frame `1` — another frame is removed from
the eligible set, refuting the claim as stated. -/
theorem C6_counterexample_capacity_eviction :
    (0 : Int) ∈ (LRUReplacer.unpin ⟨[], 1⟩ 0).lst ∧
    (0 : Int) ∉ ((LRUReplacer.unpin ⟨[], 1⟩ 0).unpin 1).lst ∧
    (1 : Int) ∈ ((LRUReplacer.unpin ⟨[], 1⟩ 0).unpin 1).lst := by decide

/-- Claim C6 (amended): provided the frame is already present or the
eligible list is below capacity, `Unpin` adds the frame at the head if it
is absent (leaving every other entry in place) and is a no-op if it is
present. -/
theorem C6_unpin_adds_if_room (r : LRUReplacer) (f : FrameId)
    (h : f ∈ r.lst ∨ r.lst.length < r.capacity) :
    (f ∈ r.lst → r.unpin f = r) ∧
    (f ∉ r.lst → (r.unpin f).lst = f :: r.lst ∧ (r.unpin f).capacity = r.capacity) := by
  constructor
  · intro hm
    simp [LRUReplacer.unpin, hm]
  · intro hm
    have hlt : r.lst.length < r.capacity := h.resolve_left hm
    have hne : r.lst.length ≠ r.capacity := Nat.ne_of_lt hlt
    simp [LRUReplacer.unpin, hm, hne]

/-- Claim C3: `UnpinPageImpl` returns `false` with the state unchanged
when the page is not resident or its pin count is already zero; otherwise
it returns `true`, the page's dirty flag becomes the or of its old value
and `is_dirty`, the pin count drops by one, the frame is handed to the
replacer (and is eligible) exactly when the count reaches zero, and the
replacer is untouched otherwise. -/
theorem C3_unpin_contract (s : BPMState) (pid : PageId) (d : Bool) :
    (s.page_table.lookup pid = none → unpinPageImpl s pid d = (false, s, [])) ∧
    (∀ fid, s.page_table.lookup pid = some fid → (getPage s fid).pin_count = 0 →
        unpinPageImpl s pid d = (false, s, [])) ∧
    (∀ fid, s.page_table.lookup pid = some fid → fid.toNat < s.pages.length →
        (getPage s fid).pin_count ≠ 0 →
        (unpinPageImpl s pid d).1 = true ∧
        (getPage (unpinPageImpl s pid d).2.1 fid).is_dirty
          = ((getPage s fid).is_dirty || d) ∧
        (getPage (unpinPageImpl s pid d).2.1 fid).pin_count
          = (getPage s fid).pin_count - 1 ∧
        ((getPage s fid).pin_count - 1 = 0 →
          fid ∈ (unpinPageImpl s pid d).2.1.replacer.lst) ∧
        ((getPage s fid).pin_count - 1 ≠ 0 →
          (unpinPageImpl s pid d).2.1.replacer = s.replacer)) := by
  refine ⟨?_, ?_, ?_⟩
  · intro hnone
    simp [unpinPageImpl, hnone]
  · intro fid hfid hpin0
    simp [unpinPageImpl, hfid, hpin0]
  · intro fid hfid hlen hpin
    cases d with
    | false =>
        by_cases hz : (getPage s fid).pin_count - 1 = 0 <;>
          simp [unpinPageImpl, hfid, hpin, hz, setPage, getPage_mk, getD_set_eq,
            hlen, mem_unpin_self]
    | true =>
        have hflush : flushPageImpl s pid
            = (true,
               setPage { s with disk := diskWrite s.disk pid (getPage s fid).data }
                 fid { getPage s fid with is_dirty := false },
               [IOEvent.writePage pid (getPage s fid).data]) := by
          simp [flushPageImpl, hfid]
        by_cases hz : (getPage s fid).pin_count - 1 = 0 <;>
          simp [unpinPageImpl, hfid, hpin, hz, hflush, setPage, getPage_mk,
            getD_set_eq, hlen, mem_unpin_self]

/-- Witness for C3: Scenario C.  Page `5` starts with pin count `2`; the
theorem is applied at the first unpin, and the concrete run confirms the
rest of the scenario: after `unpin(5,true)` and `unpin(5,false)` the page
is dirty with pin count `0` and frame `0` eligible, and a third unpin
fails. -/
theorem C3_unpin_contract_witness :
    (scenarioCState.page_table.lookup 5 = some 0 ∧
     (0 : Int).toNat < scenarioCState.pages.length ∧
     (getPage scenarioCState 0).pin_count ≠ 0) ∧
    (unpinPageImpl scenarioCState 5 true).1 = true ∧
    (unpinPageImpl scenarioCAfter1 5 false).1 = true ∧
    (getPage scenarioCAfter2 0).is_dirty = true ∧
    (getPage scenarioCAfter2 0).pin_count = 0 ∧
    (0 : Int) ∈ scenarioCAfter2.replacer.lst ∧
    (unpinPageImpl scenarioCAfter2 5 false).1 = false :=
  ⟨⟨by decide, by decide, by decide⟩,
   ((C3_unpin_contract scenarioCState 5 true).2.2 0 (by decide) (by decide)
     (by decide)).1,
   by decide, by decide, by decide, by decide, by decide⟩

/-- Claim C8: `FlushPageImpl` returns `false` exactly when the page is not
resident; on a resident page it performs exactly one unconditional disk
write of the frame's content (whatever the dirty flag), clears the dirty
flag, returns `true`, and a second flush of the same page returns `true`
with the same resulting state and the same single write. -/
theorem C8_flush_contract (s : BPMState) (pid : PageId) :
    ((flushPageImpl s pid).1 = false ↔ s.page_table.lookup pid = none) ∧
    (∀ fid, s.page_table.lookup pid = some fid → fid.toNat < s.pages.length →
        (flushPageImpl s pid).1 = true ∧
        (flushPageImpl s pid).2.2 = [IOEvent.writePage pid (getPage s fid).data] ∧
        (getPage (flushPageImpl s pid).2.1 fid).is_dirty = false ∧
        flushPageImpl (flushPageImpl s pid).2.1 pid
          = (true, (flushPageImpl s pid).2.1,
             [IOEvent.writePage pid (getPage s fid).data])) := by
  constructor
  · cases h : s.page_table.lookup pid with
    | none => simp [flushPageImpl, h]
    | some fid => simp [flushPageImpl, h]
  · intro fid hfid hlen
    simp [flushPageImpl, hfid, setPage, getPage_mk, getD_set_eq, hlen,
      diskWrite_diskWrite_self, List.set_set]

/-- Witness for C8: flushing the clean resident page `5` (Scenario E)
through the theorem at a concrete state. -/
theorem C8_flush_contract_witness :
    (residentPinned1.page_table.lookup 5 = some 0 ∧
     (0 : Int).toNat < residentPinned1.pages.length ∧
     (getPage residentPinned1 0).is_dirty = false) ∧
    (flushPageImpl residentPinned1 5).1 = true ∧
    (flushPageImpl residentPinned1 5).2.2
      = [IOEvent.writePage 5 (getPage residentPinned1 0).data] ∧
    (getPage (flushPageImpl residentPinned1 5).2.1 0).is_dirty = false :=
  ⟨⟨by decide, by decide, by decide⟩,
   ((C8_flush_contract residentPinned1 5).2 0 (by decide) (by decide)).1,
   ((C8_flush_contract residentPinned1 5).2 0 (by decide) (by decide)).2.1,
   ((C8_flush_contract residentPinned1 5).2 0 (by decide) (by decide)).2.2.1⟩

/-- Claim C10: unpinning a resident pinned page with `is_dirty = true`
itself performs a synchronous disk write of the page's content (the
internal `FlushPage` call), so the stored disk copy equals the frame
content afterwards, while the in-memory dirty flag ends up `true` (the
or-update happens after the flush cleared it). -/
theorem C10_unpin_dirty_writes (s : BPMState) (pid : PageId) (fid : FrameId)
    (hfid : s.page_table.lookup pid = some fid)
    (hlen : fid.toNat < s.pages.length)
    (hpin : (getPage s fid).pin_count ≠ 0) :
    (unpinPageImpl s pid true).2.2 = [IOEvent.writePage pid (getPage s fid).data] ∧
    diskRead (unpinPageImpl s pid true).2.1.disk pid = (getPage s fid).data ∧
    (getPage (unpinPageImpl s pid true).2.1 fid).is_dirty = true := by
  have hflush : flushPageImpl s pid
      = (true,
         setPage { s with disk := diskWrite s.disk pid (getPage s fid).data }
           fid { getPage s fid with is_dirty := false },
         [IOEvent.writePage pid (getPage s fid).data]) := by
    simp [flushPageImpl, hfid]
  by_cases hz : (getPage s fid).pin_count - 1 = 0 <;>
    simp [unpinPageImpl, hfid, hpin, hz, hflush, setPage, getPage_mk,
      getD_set_eq, hlen, diskRead_diskWrite_self]

/-- Witness for C10: the first Scenario C unpin, `unpin(5, true)` on a
page with pin count `2`, performs the disk write of page `5`. -/
theorem C10_unpin_dirty_writes_witness :
    (scenarioCState.page_table.lookup 5 = some 0 ∧
     (0 : Int).toNat < scenarioCState.pages.length ∧
     (getPage scenarioCState 0).pin_count ≠ 0) ∧
    (unpinPageImpl scenarioCState 5 true).2.2
      = [IOEvent.writePage 5 (getPage scenarioCState 0).data] ∧
    diskRead (unpinPageImpl scenarioCState 5 true).2.1.disk 5
      = (getPage scenarioCState 0).data ∧
    (getPage (unpinPageImpl scenarioCState 5 true).2.1 0).is_dirty = true :=
  ⟨⟨by decide, by decide, by decide⟩,
   C10_unpin_dirty_writes scenarioCState 5 0 (by decide) (by decide) (by decide)⟩

/-- Claim C9: when fetch or create takes a victim frame from the replacer
and the victim's page is dirty, the operation writes that page's content to
disk (before the disk read of the new page, in fetch's trace), and the
victim's page table entry is gone from the resulting state. -/
theorem C9_dirty_victim_flushed (s : BPMState) :
    (∀ pid vfid,
       s.page_table.lookup pid = none →
       s.free_list = [] →
       s.replacer.lst.getLast? = some vfid →
       vfid.toNat < s.pages.length →
       (getPage s vfid).is_dirty = true →
       s.page_table.lookup (getPage s vfid).page_id = some vfid →
       (s.replacer.victim).1 = some vfid ∧
       (fetchPageImpl s pid).2.2
         = [IOEvent.writePage (getPage s vfid).page_id (getPage s vfid).data,
            IOEvent.readPage pid] ∧
       (fetchPageImpl s pid).2.1.page_table.lookup (getPage s vfid).page_id
         = none) ∧
    (∀ vfid,
       s.free_list = [] →
       s.replacer.lst.getLast? = some vfid →
       vfid.toNat < s.pages.length →
       (getPage s vfid).is_dirty = true →
       s.page_table.lookup (getPage s vfid).page_id = some vfid →
       s.next_page_id ≠ (getPage s vfid).page_id →
       (newPageImpl s).2.2
         = [IOEvent.writePage (getPage s vfid).page_id (getPage s vfid).data] ∧
       (newPageImpl s).2.1.page_table.lookup (getPage s vfid).page_id
         = none) := by
  constructor
  · intro pid vfid hlook hfree hvic hlen hdirty hpt
    have hne : (getPage s vfid).page_id ≠ pid := by
      intro he
      rw [he] at hpt
      rw [hpt] at hlook
      exact Option.noConfusion hlook
    refine ⟨by simp [LRUReplacer.victim, hvic], ?_, ?_⟩
    · simp [fetchPageImpl, hlook, hfree, LRUReplacer.victim, hvic, flushPageImpl,
        hpt, hdirty, setPage, getPage_mk, getD_pages_fold,
        -List.getD_eq_getElem?_getD]
    · have hpt2 : (fetchPageImpl s pid).2.1.page_table
          = ptInsert (ptErase s.page_table (getPage s vfid).page_id) pid vfid := by
        simp [fetchPageImpl, hlook, hfree, LRUReplacer.victim, hvic, flushPageImpl,
          hpt, hdirty, setPage, getPage_mk, getD_pages_fold,
          -List.getD_eq_getElem?_getD]
      rw [hpt2, lookup_rebind_none _ _ _ _ hne]
  · intro vfid hfree hvic hlen hdirty hpt hne
    refine ⟨?_, ?_⟩
    · simp [newPageImpl, hfree, LRUReplacer.victim, hvic, flushPageImpl,
        hpt, hdirty, setPage, getPage_mk, getD_pages_fold,
        -List.getD_eq_getElem?_getD]
    · have hpt2 : (newPageImpl s).2.1.page_table
          = ptInsert (ptErase s.page_table (getPage s vfid).page_id)
              s.next_page_id vfid := by
        simp [newPageImpl, hfree, LRUReplacer.victim, hvic, flushPageImpl,
          hpt, hdirty, setPage, getPage_mk, getD_pages_fold,
          -List.getD_eq_getElem?_getD]
      rw [hpt2, lookup_rebind_none _ _ _ _ (Ne.symm hne)]

/-- Witness for C9: Scenario B.  Pool of two frames, page `1` (dirty)
unpinned before page `2`; fetching page `3` victimizes frame `0`, writes
page `1` to disk before reading page `3`, and drops page `1` from the
table. -/
theorem C9_dirty_victim_flushed_witness :
    (scenarioBState.page_table.lookup 3 = none ∧
     scenarioBState.free_list = [] ∧
     scenarioBState.replacer.lst.getLast? = some 0 ∧
     (0 : Int).toNat < scenarioBState.pages.length ∧
     (getPage scenarioBState 0).is_dirty = true ∧
     scenarioBState.page_table.lookup (getPage scenarioBState 0).page_id
       = some 0) ∧
    ((scenarioBState.replacer.victim).1 = some 0 ∧
     (fetchPageImpl scenarioBState 3).2.2
       = [IOEvent.writePage (getPage scenarioBState 0).page_id
            (getPage scenarioBState 0).data,
          IOEvent.readPage 3] ∧
     (fetchPageImpl scenarioBState 3).2.1.page_table.lookup
       (getPage scenarioBState 0).page_id = none) :=
  ⟨⟨by decide, by decide, by decide, by decide, by decide, by decide⟩,
   (C9_dirty_victim_flushed scenarioBState).1 3 0 (by decide) (by decide)
     (by decide) (by decide) (by decide) (by decide)⟩

/-! ### Replacer history lemmas for C7 -/

theorem victim_fst (r : LRUReplacer) : (r.victim).1 = r.lst.getLast? := by
  rcases h : r.lst.getLast? with _ | v <;> simp [LRUReplacer.victim, h]

theorem victim_snd_lst (r : LRUReplacer) : ((r.victim).2).lst = r.lst.dropLast := by
  rcases h : r.lst.getLast? with _ | v
  · simp [LRUReplacer.victim, h, List.getLast?_eq_none_iff.mp h]
  · simp [LRUReplacer.victim, h]

theorem victim_snd_capacity (r : LRUReplacer) :
    ((r.victim).2).capacity = r.capacity := by
  rcases h : r.lst.getLast? with _ | v <;> simp [LRUReplacer.victim, h]

theorem map_fst_gEraseKey (g : List (FrameId × Nat)) (f : FrameId) :
    (gEraseKey g f).map Prod.fst = (g.map Prod.fst).erase f := by
  rw [List.erase_eq_eraseP, List.eraseP_map]
  rfl

theorem applyOp_corr (cap : Nat) (r : LRUReplacer) (g : List (FrameId × Nat))
    (t : Nat) (op : ROp) (hcap : r.capacity = cap) (hl : r.lst = g.map Prod.fst) :
    (r.applyOp op).capacity = cap ∧
    (r.applyOp op).lst = ((gApply cap (g, t) op).1).map Prod.fst := by
  cases op with
  | unpinOp f =>
      by_cases hm : f ∈ g.map Prod.fst
      · simp [LRUReplacer.applyOp, LRUReplacer.unpin, gApply, hm, hl, hcap]
      · have hlen : r.lst.length = g.length := by
          rw [hl, List.length_map]
        by_cases hc : g.length = cap
        · simp [LRUReplacer.applyOp, LRUReplacer.unpin, gApply, hm, hl, hcap,
            hc, hlen, List.map_dropLast]
        · simp [LRUReplacer.applyOp, LRUReplacer.unpin, gApply, hm, hl, hcap,
            hc, hlen]
  | pinOp f =>
      by_cases hm : f ∈ g.map Prod.fst
      · simp [LRUReplacer.applyOp, LRUReplacer.pin, LRUReplacer.eraseKey,
          gApply, hm, hl, hcap, map_fst_gEraseKey]
      · simp [LRUReplacer.applyOp, LRUReplacer.pin, gApply, hm, hl, hcap]
  | victimOp =>
      refine ⟨?_, ?_⟩
      · rw [show (r.applyOp ROp.victimOp) = (r.victim).2 from rfl,
          victim_snd_capacity, hcap]
      · rw [show (r.applyOp ROp.victimOp) = (r.victim).2 from rfl,
          victim_snd_lst, hl, gApply, List.map_dropLast]

theorem runAux_corr (cap : Nat) (ops : List ROp) :
    ∀ (r : LRUReplacer) (g : List (FrameId × Nat)) (t : Nat),
      r.capacity = cap → r.lst = g.map Prod.fst →
      (ops.foldl LRUReplacer.applyOp r).capacity = cap ∧
      (ops.foldl LRUReplacer.applyOp r).lst
        = ((ops.foldl (gApply cap) (g, t)).1).map Prod.fst := by
  induction ops with
  | nil =>
      intro r g t h1 h2
      exact ⟨h1, h2⟩
  | cons op ops ih =>
      intro r g t h1 h2
      have hstep := applyOp_corr cap r g t op h1 h2
      simpa only [List.foldl_cons] using
        ih (r.applyOp op) (gApply cap (g, t) op).1 (gApply cap (g, t) op).2
          hstep.1 hstep.2

theorem gApply_time (cap : Nat) (g : List (FrameId × Nat)) (t : Nat) (op : ROp) :
    (gApply cap (g, t) op).2 = t + 1 := by
  cases op with
  | unpinOp f =>
      by_cases hm : f ∈ g.map Prod.fst
      · simp [gApply, hm]
      · by_cases hc : g.length = cap <;> simp [gApply, hm, hc]
  | pinOp f => rfl
  | victimOp => rfl

theorem gApply_sorted (cap : Nat) (g : List (FrameId × Nat)) (t : Nat) (op : ROp)
    (h : gSorted g t) :
    gSorted ((gApply cap (g, t) op).1) ((gApply cap (g, t) op).2) := by
  obtain ⟨hp, hb⟩ := h
  cases op with
  | unpinOp f =>
      by_cases hm : f ∈ g.map Prod.fst
      · exact ⟨by simpa [gApply, hm] using hp,
          by simp only [gApply, hm, if_true]
             exact fun p hq => Nat.lt_succ_of_lt (hb p hq)⟩
      · by_cases hc : g.length = cap
        · refine ⟨?_, ?_⟩
          · simp only [gApply, hm, hc, if_false, if_true, ite_true, ite_false]
            refine List.pairwise_cons.mpr ⟨?_, hp.sublist (List.dropLast_sublist g)⟩
            intro q hq
            exact hb q ((List.dropLast_sublist g).mem hq)
          · simp only [gApply, hm, hc, if_false, if_true, ite_true, ite_false]
            intro q hq
            rcases List.mem_cons.mp hq with rfl | hq2
            · exact Nat.lt_succ_self t
            · exact Nat.lt_succ_of_lt (hb q ((List.dropLast_sublist g).mem hq2))
        · refine ⟨?_, ?_⟩
          · simp only [gApply, hm, hc, if_false, ite_true, ite_false]
            exact List.pairwise_cons.mpr ⟨fun q hq => hb q hq, hp⟩
          · simp only [gApply, hm, hc, if_false, ite_true, ite_false]
            intro q hq
            rcases List.mem_cons.mp hq with rfl | hq2
            · exact Nat.lt_succ_self t
            · exact Nat.lt_succ_of_lt (hb q hq2)
  | pinOp f =>
      by_cases hm : f ∈ g.map Prod.fst
      · refine ⟨?_, ?_⟩
        · simpa [gApply, hm, gEraseKey] using
            hp.sublist (List.eraseP_sublist g)
        · simp only [gApply, hm, if_true]
          intro q hq
          exact Nat.lt_succ_of_lt
            (hb q ((List.eraseP_sublist g).mem (by simpa [gEraseKey] using hq)))
      · refine ⟨by simpa [gApply, hm] using hp, ?_⟩
        simp only [gApply, hm, if_false]
        exact fun q hq => Nat.lt_succ_of_lt (hb q (by simpa using hq))
  | victimOp =>
      refine ⟨hp.sublist (List.dropLast_sublist g), ?_⟩
      exact fun q hq => Nat.lt_succ_of_lt (hb q ((List.dropLast_sublist g).mem hq))

theorem gRunAux_sorted (cap : Nat) (ops : List ROp) :
    ∀ (g : List (FrameId × Nat)) (t : Nat), gSorted g t →
      gSorted ((ops.foldl (gApply cap) (g, t)).1)
        ((ops.foldl (gApply cap) (g, t)).2) := by
  induction ops with
  | nil => intro g t h; exact h
  | cons op ops ih =>
      intro g t h
      have hstep := gApply_sorted cap g t op h
      simpa only [List.foldl_cons] using
        ih (gApply cap (g, t) op).1 (gApply cap (g, t) op).2 hstep

theorem pairwise_getLast_min :
    ∀ (g : List (FrameId × Nat)) (h : g ≠ []),
      List.Pairwise (fun a b => b.2 < a.2) g →
      ∀ p ∈ g, (g.getLast h).2 ≤ p.2 := by
  intro g
  induction g with
  | nil => intro h; exact absurd rfl h
  | cons a g2 ih =>
      intro h hp p hmem
      cases g2 with
      | nil =>
          rcases List.mem_cons.mp hmem with rfl | h2
          · exact Nat.le_refl _
          · exact absurd h2 (List.not_mem_nil p)
      | cons b g3 =>
          rw [List.getLast_cons (List.cons_ne_nil b g3)]
          rcases List.mem_cons.mp hmem with rfl | h2
          · have hmem2 := List.getLast_mem (List.cons_ne_nil b g3)
            exact Nat.le_of_lt ((List.pairwise_cons.mp hp).1 _ hmem2)
          · exact ih (List.cons_ne_nil b g3) (List.pairwise_cons.mp hp).2 p h2

/-- Claim C7: over any call history run against a fresh replacer, `Victim`
reports failure exactly when the eligible set is empty; otherwise it
returns the eligible frame whose becoming-eligible timestamp (recorded by
the ghost run `gRun`) is minimal — the frame that became eligible longest
ago — and removes exactly that frame, leaving the rest of the eligible
list. -/
theorem C7_victim_oldest_eligible (cap : Nat) (ops : List ROp) :
    (((runOps cap ops).victim).1 = none ↔ (gRun cap ops).1 = []) ∧
    (∀ h : (gRun cap ops).1 ≠ [],
       ((runOps cap ops).victim).1 = some ((gRun cap ops).1.getLast h).1 ∧
       (∀ p ∈ (gRun cap ops).1, ((gRun cap ops).1.getLast h).2 ≤ p.2) ∧
       ((runOps cap ops).victim).2.lst
         = ((gRun cap ops).1.dropLast).map Prod.fst) := by
  have hcorr := runAux_corr cap ops ⟨[], cap⟩ [] 0 rfl rfl
  have hlst : (runOps cap ops).lst = ((gRun cap ops).1).map Prod.fst := hcorr.2
  have hsort := gRunAux_sorted cap ops [] 0 ⟨List.Pairwise.nil, by simp⟩
  constructor
  · rw [victim_fst, hlst, List.getLast?_eq_none_iff, List.map_eq_nil_iff]
  · intro h
    have hmapne : ((gRun cap ops).1).map Prod.fst ≠ [] := by
      simpa [List.map_eq_nil_iff] using h
    refine ⟨?_, ?_, ?_⟩
    · rw [victim_fst, hlst, List.getLast?_eq_getLast _ hmapne, List.getLast_map]
    · exact pairwise_getLast_min (gRun cap ops).1 h hsort.1
    · rw [victim_snd_lst, hlst, List.map_dropLast]

/-- Witness for C7: with capacity `2` and history `Unpin 0; Unpin 1`,
frame `0` became eligible at time `0`, frame `1` at time `1`, and `Victim`
returns frame `0`, the oldest-eligible one. -/
theorem C7_victim_oldest_eligible_witness :
    (gRun 2 [ROp.unpinOp 0, ROp.unpinOp 1]).1 ≠ [] ∧
    (gRun 2 [ROp.unpinOp 0, ROp.unpinOp 1]).1 = [(1, 1), (0, 0)] ∧
    ((runOps 2 [ROp.unpinOp 0, ROp.unpinOp 1]).victim).1 = some 0 :=
  ⟨by decide, by decide,
   by
    have h := (C7_victim_oldest_eligible 2 [ROp.unpinOp 0, ROp.unpinOp 1]).2
      (by decide)
    rw [h.1]
    decide⟩

/-- Witness for C6: the amended statement applied to an empty replacer of
capacity `1` and frame `0`. -/
theorem C6_unpin_adds_if_room_witness :
    ((0 : Int) ∈ (LRUReplacer.mk [] 1).lst ∨ (LRUReplacer.mk [] 1).lst.length < (LRUReplacer.mk [] 1).capacity) ∧
    ((LRUReplacer.unpin ⟨[], 1⟩ 0).lst = [0] ∧ (LRUReplacer.unpin ⟨[], 1⟩ 0).capacity = 1) :=
  ⟨Or.inr (by decide),
   (C6_unpin_adds_if_room ⟨[], 1⟩ 0 (Or.inr (by decide))).2 (by decide)⟩
